import Mathlib

/-!
# Verification of the d365-schema-compare reconciliation core

This file is a shallow embedding, in Lean 4, of the schema-reconciliation
core of `src/main.py`:

* the metadata normalizer inside `get_metadata` (lines 166-177), which
  flattens the raw entity/attribute payload into flat field records;
* the per-environment loop of `get_metadata` (lines 140-185), including its
  failure behaviour (a Python exception raised while processing one
  environment propagates and aborts the loop);
* the comparison pipeline of `compare_environments` (lines 188-257):
  pandas outer merge on `(EntityName, ColumnName)` with a `_merge`
  indicator, sort by `(EntityName, ColumnName)`, the equality filter that
  drops rows whose types and lengths agree (NaN agreeing with NaN), the
  two `_merge` reassignments, the whole-frame `replace` of the indicator
  sentinels, and the group-by/pivot summary.

pandas semantics embedded here:
* missing values (`NaN`) are `Option.none`;
* elementwise `==` on two columns is false whenever either side is `NaN`
  (`pandas_eq`), and elementwise `!=` is its complement (`pandas_ne`) —
  in particular `NaN != NaN` is *true*;
* `merge` matches `NaN` join keys with `NaN` join keys, so join-key
  equality is plain structural equality on `Option`;
* `sort_values(by=[EntityName, ColumnName])` sorts ascending with `NaN`
  placed last, i.e. lexicographically with `none` greatest in the
  `ColumnName` component;
* `DataFrame.replace({...})` with a flat dict replaces matching values in
  *every* string column of the frame, not only in `_merge`;
* `groupby(...)["ColumnName"].count()` counts the *non-null* `ColumnName`
  entries of each group.
-/

namespace SchemaCompare

/-! ## Raw payload model (input of the normalizer) -/

/-- A scalar value occurring in the raw metadata payload (string or number). -/
inductive JVal where
  | str (s : String)
  | num (n : Int)
deriving DecidableEq, Repr

/-- A raw attribute object: a string-keyed dictionary, as produced by
`attribute = dict(attribute)` in `get_metadata` (line 171). -/
abbrev Attr : Type := List (String × JVal)

/-- `attribute.get(key)`: first binding of `key`, `none` when the key is
absent (Python `dict.get` returns `None`). -/
def dict_get (key : String) (a : Attr) : Option JVal :=
  (a.find? (fun p => p.1 == key)).map (·.2)

/-- One element of `result['value']`: the code reads `entity['LogicalName']`
and `entity['Attributes']` by direct indexing (lines 168-169), which raises
`KeyError` when the key is absent; `none` models an absent key. -/
structure Entity where
  logicalName : Option String
  attributes : Option (List Attr)
deriving DecidableEq

/-- One row appended to `entity_fields` (line 175):
`[entity_logical_name, logical_name, attribute_type, max_length]`. -/
structure FieldRecordRaw where
  entityName : String
  columnName : Option JVal
  columnType : Option JVal
  columnLength : Option JVal
deriving DecidableEq

/-- The record built for one attribute (lines 172-175): each optional field
is `attribute.get(...)`, hence `none` (never an error) when absent. -/
def mk_record (entityName : String) (a : Attr) : FieldRecordRaw :=
  { entityName := entityName
    columnName := dict_get "LogicalName" a
    columnType := dict_get "AttributeType" a
    columnLength := dict_get "MaxLength" a }

/-- Normalization of one entity (lines 168-175): direct indexing of
`LogicalName` and `Attributes` raises on absence; otherwise one record per
attribute, in attribute order. -/
def normalize_entity (e : Entity) : Except String (List FieldRecordRaw) :=
  match e.logicalName with
  | none => .error "KeyError: LogicalName"
  | some ln =>
    match e.attributes with
    | none => .error "KeyError: Attributes"
    | some attrs => .ok (attrs.map (mk_record ln))

/-- Normalization of a whole payload (the nested loop of lines 167-175):
records accumulate entity by entity; the first raising entity aborts the
whole environment. -/
def normalize_payload : List Entity → Except String (List FieldRecordRaw)
  | [] => .ok []
  | e :: rest =>
    match normalize_entity e with
    | .error msg => .error msg
    | .ok rs =>
      match normalize_payload rest with
      | .error msg => .error msg
      | .ok rest' => .ok (rs ++ rest')

/-- The `get_metadata` loop over environments (lines 141-183).  Each
environment's payload (the fetched `result['value']`) is normalized and its
snapshot written out; the function returns the snapshots written, in order,
together with the first error if one occurred.  There is no `try/except` in
the source, so an exception raised for one environment propagates: the
remaining environments are not processed. -/
def get_metadata : List (String × List Entity) → List (String × List FieldRecordRaw) × Option String
  | [] => ([], none)
  | (name, payload) :: rest =>
    match normalize_payload payload with
    | .error msg => ([], some msg)
    | .ok recs =>
      let (outs, err) := get_metadata rest
      ((name, recs) :: outs, err)

/-! ## Snapshot rows (input of the comparison, after the CSV round-trip) -/

/-- One row of `entity_fields_{environment}.csv` as read back by
`pd.read_csv` (lines 193, 200): `EntityName, ColumnName, ColumnType,
ColumnLength`, where an empty cell reads back as `NaN` (`none`). -/
structure FieldRecord where
  entityName : String
  columnName : Option String
  columnType : Option String
  columnLength : Option Int
deriving DecidableEq, Repr

/-- The join key `(EntityName, ColumnName)` of a snapshot row. -/
def recKey (r : FieldRecord) : String × Option String :=
  (r.entityName, r.columnName)

/-- One row of `merged_df` (line 204): the join key, the environment-side
columns (`ColumnType_{env}`, `ColumnLength_{env}`), the baseline-side
columns, and the `_merge` indicator as a string (after line 225's
`astype({'_merge': 'str'})`). -/
structure MergedRow where
  entityName : String
  columnName : Option String
  columnTypeEnv : Option String
  columnLengthEnv : Option Int
  columnTypeBase : Option String
  columnLengthBase : Option Int
  merge : String
deriving DecidableEq, Repr

/-- The join key `(EntityName, ColumnName)` of a merged row. -/
def rowKey (r : MergedRow) : String × Option String :=
  (r.entityName, r.columnName)

/-- Merged row for an environment-only key (`_merge = 'left_only'`; the
environment frame is the left side of the merge on line 204). -/
def mkLeft (e : FieldRecord) : MergedRow :=
  ⟨e.entityName, e.columnName, e.columnType, e.columnLength, none, none, "left_only"⟩

/-- Merged row for a key present on both sides (`_merge = 'both'`). -/
def mkBoth (e b : FieldRecord) : MergedRow :=
  ⟨e.entityName, e.columnName, e.columnType, e.columnLength, b.columnType, b.columnLength, "both"⟩

/-- Merged row for a baseline-only key (`_merge = 'right_only'`). -/
def mkRight (b : FieldRecord) : MergedRow :=
  ⟨b.entityName, b.columnName, none, none, b.columnType, b.columnLength, "right_only"⟩

/-- The merged rows contributed by one environment row: one `both` row per
key-matching baseline row, or a single `left_only` row when none
matches. -/
def join_left_rows (base : List FieldRecord) (e : FieldRecord) : List MergedRow :=
  let ms := base.filter (fun b => decide (recKey b = recKey e))
  if ms.isEmpty then [mkLeft e] else ms.map (mkBoth e)

/-- `environment_df.merge(right=baseline_df, how='outer', on=['EntityName',
'ColumnName'], indicator=True)` (line 204).  Every environment row is paired
with each baseline row of equal key (pandas matches `NaN` keys with `NaN`
keys), or emitted alone as `left_only`; unmatched baseline rows are emitted
as `right_only`.  Row order is irrelevant: the frame is re-sorted on
line 205. -/
def outer_join (env base : List FieldRecord) : List MergedRow :=
  (env.flatMap (join_left_rows base))
  ++ (base.filter (fun b => !(env.any (fun e => decide (recKey e = recKey b))))).map mkRight

/-! ## Sorting (`sort_values`, lines 194, 201, 205) -/

/-- Strict lexicographic order on character lists, by code point — the
order Python/pandas use on strings. -/
def charListLt : List Char → List Char → Bool
  | [], [] => false
  | [], _ :: _ => true
  | _ :: _, [] => false
  | a :: as, b :: bs => decide (a < b) || (decide (a = b) && charListLt as bs)

/-- Strict lexicographic order on strings. -/
def str_lt (a b : String) : Bool :=
  charListLt a.data b.data

/-- Ascending order on an optional `ColumnName` cell: `sort_values` places
`NaN` last, so `none` is greatest. -/
def optStrLe (a b : Option String) : Prop :=
  match a, b with
  | none, none => True
  | none, some _ => False
  | some _, none => True
  | some x, some y => str_lt x y = true ∨ x = y

instance : DecidableRel optStrLe := fun a b =>
  match a, b with
  | none, none => isTrue trivial
  | none, some _ => isFalse (fun h => h)
  | some _, none => isTrue trivial
  | some x, some y => inferInstanceAs (Decidable (str_lt x y = true ∨ x = y))

/-- Lexicographic ascending order on the `(EntityName, ColumnName)` key,
as used by `sort_values(by=['EntityName', 'ColumnName'])`. -/
def keyLe (a b : String × Option String) : Prop :=
  str_lt a.1 b.1 = true ∨ (a.1 = b.1 ∧ optStrLe a.2 b.2)

instance : DecidableRel keyLe := fun a b =>
  inferInstanceAs (Decidable (str_lt a.1 b.1 = true ∨ (a.1 = b.1 ∧ optStrLe a.2 b.2)))

/-- The sort order on merged rows: by join key. -/
def rowLe (a b : MergedRow) : Prop :=
  keyLe (rowKey a) (rowKey b)

instance : DecidableRel rowLe := fun a b =>
  inferInstanceAs (Decidable (keyLe (rowKey a) (rowKey b)))

/-- `merged_df.sort_values(by=['EntityName', 'ColumnName'])` (line 205). -/
def sort_merged (l : List MergedRow) : List MergedRow :=
  List.insertionSort rowLe l

/-! ## The equality filter (lines 210-222) -/

/-- pandas elementwise `==` on two cells: false whenever either side is
`NaN`. -/
def pandas_eq {α : Type} [DecidableEq α] (a b : Option α) : Bool :=
  match a, b with
  | some x, some y => decide (x = y)
  | some _, none => false
  | none, some _ => false
  | none, none => false

/-- pandas elementwise `!=`: the complement of `==` on every pair of cells;
in particular `NaN != NaN` is true. -/
def pandas_ne {α : Type} [DecidableEq α] (a b : Option α) : Bool :=
  !(pandas_eq a b)

/-- `col_env.isna() & col_base.isna()`: both cells are `NaN`. -/
def both_na {α : Type} (a b : Option α) : Bool :=
  a.isNone && b.isNone

/-- The complement of the drop condition of lines 210-222: a merged row is
kept iff NOT ((types equal, or both type cells NaN) and (lengths equal, or
both length cells NaN)). -/
def keep_row (r : MergedRow) : Bool :=
  !((pandas_eq r.columnTypeEnv r.columnTypeBase || both_na r.columnTypeEnv r.columnTypeBase)
    && (pandas_eq r.columnLengthEnv r.columnLengthBase || both_na r.columnLengthEnv r.columnLengthBase))

/-! ## Labeling (lines 227-242) -/

/-- The value-replacement map of `differences_df.replace(to_replace={...})`
(lines 238-242).  A flat dict `replace` applies to every string column of
the frame, replacing whole-cell matches of the three indicator sentinels. -/
def replace_label (envName baseName : String) (s : String) : String :=
  if s = "left_only" then "Missing in " ++ baseName
  else if s = "right_only" then "Missing in " ++ envName
  else if s = "both" then "Different Type\\Length"
  else s

/-- The classification of one kept row:
1. line 227-231: rows with `_merge == 'both'` whose type columns compare
   unequal under pandas `!=` become `"Different Type"`;
2. line 232-236: rows still `'both'` whose type columns compare equal under
   pandas `==` become `"Different Length"`;
3. lines 238-242: `replace` rewrites the sentinels in every string column
   (`EntityName`, `ColumnName`, both `ColumnType` columns and `_merge`; the
   numeric `ColumnLength` columns are untouched). -/
def classify (envName baseName : String) (r : MergedRow) : MergedRow :=
  let m1 := if r.merge = "both" ∧ pandas_ne r.columnTypeEnv r.columnTypeBase = true
            then "Different Type" else r.merge
  let m2 := if m1 = "both" ∧ pandas_eq r.columnTypeEnv r.columnTypeBase = true
            then "Different Length" else m1
  { entityName := replace_label envName baseName r.entityName
    columnName := r.columnName.map (replace_label envName baseName)
    columnTypeEnv := r.columnTypeEnv.map (replace_label envName baseName)
    columnLengthEnv := r.columnLengthEnv
    columnTypeBase := r.columnTypeBase.map (replace_label envName baseName)
    columnLengthBase := r.columnLengthBase
    merge := replace_label envName baseName m2 }

/-- The body of the comparison loop of `compare_environments` for one
environment (lines 204-243): outer join, sort by key, drop rows with equal
types and equal lengths, classify the rest.  The result is `differences_df`
(whose `_merge` column is renamed `Difference` on line 243). -/
def compare_environments (envName baseName : String) (env base : List FieldRecord) : List MergedRow :=
  ((sort_merged (outer_join env base)).filter keep_row).map (classify envName baseName)

/-! ## Summary (lines 245-249) -/

/-- One cell of the pivoted summary: the count, within the group
`(EntityName = ent, Difference = kind)` of `differences_df`, of non-null
`ColumnName` entries — `groupby(['EntityName', 'Difference'])["ColumnName"]
.count()` counts non-NA values, and `pivot_table(..., fill_value=0)` fills
absent groups with `0`, which coincides with a zero count. -/
def summary_count (rows : List MergedRow) (ent kind : String) : Nat :=
  rows.countP (fun r => (decide (r.entityName = ent) && r.columnName.isSome) && decide (r.merge = kind))

/-- The columns of the pivoted summary: the `Difference` kinds observed in
`differences_df`. -/
def diff_kinds (rows : List MergedRow) : List String :=
  (rows.map (·.merge)).dedup

/-- The sum of all summary cells of entity `ent`'s row. -/
def summary_row_sum (rows : List MergedRow) (ent : String) : Nat :=
  ((diff_kinds rows).map (fun k => summary_count rows ent k)).sum

/-! ## Properties of the sort order -/

theorem charListLt_trans : ∀ {l1 l2 l3 : List Char},
    charListLt l1 l2 = true → charListLt l2 l3 = true → charListLt l1 l3 = true
  | [], [], _, h12, _ => by simp [charListLt] at h12
  | [], _ :: _, [], _, h23 => by simp [charListLt] at h23
  | [], _ :: _, _ :: _, _, _ => rfl
  | _ :: _, [], _, h12, _ => by simp [charListLt] at h12
  | _ :: _, _ :: _, [], _, h23 => by simp [charListLt] at h23
  | a1 :: t1, a2 :: t2, a3 :: t3, h12, h23 => by
    simp only [charListLt, Bool.or_eq_true, Bool.and_eq_true, decide_eq_true_eq] at h12 h23 ⊢
    rcases h12 with h12 | ⟨rfl, h12⟩
    · rcases h23 with h23 | ⟨rfl, _⟩
      · exact Or.inl (lt_trans h12 h23)
      · exact Or.inl h12
    · rcases h23 with h23 | ⟨rfl, h23⟩
      · exact Or.inl h23
      · exact Or.inr ⟨rfl, charListLt_trans h12 h23⟩

theorem charListLt_trichotomy : ∀ l1 l2 : List Char,
    charListLt l1 l2 = true ∨ l1 = l2 ∨ charListLt l2 l1 = true
  | [], [] => Or.inr (Or.inl rfl)
  | [], _ :: _ => Or.inl rfl
  | _ :: _, [] => Or.inr (Or.inr rfl)
  | a1 :: t1, a2 :: t2 => by
    simp only [charListLt, Bool.or_eq_true, Bool.and_eq_true, decide_eq_true_eq, List.cons.injEq]
    rcases lt_trichotomy a1 a2 with h | rfl | h
    · exact Or.inl (Or.inl h)
    · rcases charListLt_trichotomy t1 t2 with h | rfl | h
      · exact Or.inl (Or.inr ⟨rfl, h⟩)
      · exact Or.inr (Or.inl ⟨rfl, rfl⟩)
      · exact Or.inr (Or.inr (Or.inr ⟨rfl, h⟩))
    · exact Or.inr (Or.inr (Or.inl h))

theorem str_lt_trans {a b c : String} (h1 : str_lt a b = true) (h2 : str_lt b c = true) :
    str_lt a c = true :=
  charListLt_trans h1 h2

theorem str_lt_trichotomy (a b : String) : str_lt a b = true ∨ a = b ∨ str_lt b a = true := by
  rcases charListLt_trichotomy a.data b.data with h | h | h
  · exact Or.inl h
  · refine Or.inr (Or.inl ?_)
    cases a; cases b; exact congrArg String.mk h
  · exact Or.inr (Or.inr h)

theorem optStrLe_trans : ∀ {a b c : Option String}, optStrLe a b → optStrLe b c → optStrLe a c
  | none, _, none, _, _ => True.intro
  | some _, _, none, _, _ => True.intro
  | none, none, some _, _, h2 => h2
  | none, some _, some _, h1, _ => h1.elim
  | some _, none, some _, _, h2 => h2.elim
  | some x, some y, some z, h1, h2 => by
    rcases h1 with h1 | rfl
    · rcases h2 with h2 | rfl
      · exact Or.inl (str_lt_trans h1 h2)
      · exact Or.inl h1
    · exact h2

theorem optStrLe_total : ∀ a b : Option String, optStrLe a b ∨ optStrLe b a
  | none, none => Or.inl trivial
  | none, some _ => Or.inr trivial
  | some _, none => Or.inl trivial
  | some x, some y => by
    rcases str_lt_trichotomy x y with h | rfl | h
    · exact Or.inl (Or.inl h)
    · exact Or.inl (Or.inr rfl)
    · exact Or.inr (Or.inl h)

theorem keyLe_trans {x y z : String × Option String} (h1 : keyLe x y) (h2 : keyLe y z) :
    keyLe x z := by
  rcases h1 with h1 | ⟨e1, o1⟩
  · rcases h2 with h2 | ⟨e2, _⟩
    · exact Or.inl (str_lt_trans h1 h2)
    · exact Or.inl (e2 ▸ h1)
  · rcases h2 with h2 | ⟨e2, o2⟩
    · exact Or.inl (e1 ▸ h2)
    · exact Or.inr ⟨e1.trans e2, optStrLe_trans o1 o2⟩

theorem keyLe_total (x y : String × Option String) : keyLe x y ∨ keyLe y x := by
  rcases str_lt_trichotomy x.1 y.1 with h | h | h
  · exact Or.inl (Or.inl h)
  · rcases optStrLe_total x.2 y.2 with h' | h'
    · exact Or.inl (Or.inr ⟨h, h'⟩)
    · exact Or.inr (Or.inr ⟨h.symm, h'⟩)
  · exact Or.inr (Or.inl h)

instance : IsTrans MergedRow rowLe := ⟨fun _ _ _ => keyLe_trans⟩

instance : IsTotal MergedRow rowLe := ⟨fun a b => keyLe_total (rowKey a) (rowKey b)⟩

/-- `sort_values` produces a frame sorted ascending by the key. -/
theorem sort_merged_sorted (l : List MergedRow) : List.Sorted rowLe (sort_merged l) :=
  List.sorted_insertionSort rowLe l

/-- Sorting permutes the rows. -/
theorem sort_merged_perm (l : List MergedRow) : List.Perm (sort_merged l) l :=
  List.perm_insertionSort rowLe l

/-! ## Structure of the outer join -/

/-- Every merged row carries one of the three pandas indicator values. -/
theorem mem_outer_join_merge {env base : List FieldRecord} {r : MergedRow}
    (h : r ∈ outer_join env base) :
    r.merge = "both" ∨ r.merge = "left_only" ∨ r.merge = "right_only" := by
  rcases List.mem_append.mp h with h | h
  · rcases List.mem_flatMap.mp h with ⟨e, _, hr⟩
    simp only [join_left_rows] at hr
    by_cases hm : (List.filter (fun b => decide (recKey b = recKey e)) base).isEmpty = true
    · rw [if_pos hm] at hr
      rw [List.mem_singleton.mp hr]
      exact Or.inr (Or.inl rfl)
    · rw [if_neg hm] at hr
      obtain ⟨b, _, hb⟩ := List.mem_map.mp hr
      rw [← hb]; exact Or.inl rfl
  · obtain ⟨b, _, hb⟩ := List.mem_map.mp h
    rw [← hb]; exact Or.inr (Or.inr rfl)

/-- Every merged row's join key is the key of some row of one of the two
snapshots. -/
theorem outer_join_key_mem {env base : List FieldRecord} {r : MergedRow}
    (h : r ∈ outer_join env base) :
    ∃ rec, rec ∈ env ++ base ∧ r.entityName = rec.entityName ∧ r.columnName = rec.columnName := by
  rcases List.mem_append.mp h with h | h
  · rcases List.mem_flatMap.mp h with ⟨e, he, hr⟩
    simp only [join_left_rows] at hr
    by_cases hm : (List.filter (fun b => decide (recKey b = recKey e)) base).isEmpty = true
    · rw [if_pos hm] at hr
      exact ⟨e, List.mem_append_left _ he, by simp [List.mem_singleton.mp hr, mkLeft]⟩
    · rw [if_neg hm] at hr
      obtain ⟨b, _, hb⟩ := List.mem_map.mp hr
      exact ⟨e, List.mem_append_left _ he, by simp [← hb, mkBoth]⟩
  · obtain ⟨b, hb, hrb⟩ := List.mem_map.mp h
    exact ⟨b, List.mem_append_right _ (List.mem_of_mem_filter hb), by simp [← hrb, mkRight]⟩

/-! ## Sentinel-free values

`DataFrame.replace` with a flat dict rewrites any cell of a string column
whose value is one of the three indicator sentinels.  A string is *clean*
when it is none of them, so that `replace` leaves it unchanged. -/

/-- `s` is none of the three `_merge` indicator sentinels. -/
def clean_string (s : String) : Bool :=
  !(s == "left_only" || s == "right_only" || s == "both")

/-- The key cells of a snapshot row are not sentinel values. -/
def clean_record (r : FieldRecord) : Bool :=
  clean_string r.entityName &&
    (match r.columnName with
     | none => true
     | some s => clean_string s)

/-- The key cells of a merged row are not sentinel values. -/
def clean_row_key (r : MergedRow) : Bool :=
  clean_string r.entityName &&
    (match r.columnName with
     | none => true
     | some s => clean_string s)

theorem replace_label_eq_self {s : String} (envName baseName : String)
    (h : clean_string s = true) : replace_label envName baseName s = s := by
  simp only [clean_string, Bool.not_eq_true', Bool.or_eq_false_iff, beq_eq_false_iff_ne,
    ne_eq] at h
  simp [replace_label, h.1.1, h.1.2, h.2]

/-- `replace` does not change the join key of a row whose key cells are
clean. -/
theorem rowKey_classify {r : MergedRow} (envName baseName : String)
    (h : clean_row_key r = true) :
    rowKey (classify envName baseName r) = rowKey r := by
  simp only [clean_row_key, Bool.and_eq_true] at h
  obtain ⟨h1, h2⟩ := h
  simp only [rowKey, classify]
  refine Prod.ext (replace_label_eq_self envName baseName h1) ?_
  cases hc : r.columnName with
  | none => simp
  | some s =>
    rw [hc] at h2
    simp [replace_label_eq_self envName baseName h2]

/-- If every snapshot row has clean key cells, so does every merged row. -/
theorem outer_join_clean {env base : List FieldRecord}
    (h : ∀ rec ∈ env ++ base, clean_record rec = true) :
    ∀ r ∈ outer_join env base, clean_row_key r = true := by
  intro r hr
  obtain ⟨rec, hrec, he, hc⟩ := outer_join_key_mem hr
  have := h rec hrec
  simp only [clean_record, Bool.and_eq_true] at this
  simp only [clean_row_key, Bool.and_eq_true, he, hc]
  exact this

/-! ## Classification of single rows -/

/-- A `left_only` row is labelled `Missing in {baseline_name}` (the left
side of the merge is the environment). -/
theorem classify_left_only {r : MergedRow} (envName baseName : String)
    (h : r.merge = "left_only") :
    (classify envName baseName r).merge = "Missing in " ++ baseName := by
  simp [classify, h, replace_label]

/-- A `right_only` row is labelled `Missing in {environment_name}`. -/
theorem classify_right_only {r : MergedRow} (envName baseName : String)
    (h : r.merge = "right_only") :
    (classify envName baseName r).merge = "Missing in " ++ envName := by
  simp [classify, h, replace_label]

/-- A `both` row whose type columns compare equal under pandas `==` (both
present with the same value) is labelled `Different Length`. -/
theorem classify_both_type_eq {r : MergedRow} (envName baseName : String)
    (hm : r.merge = "both") (ht : pandas_eq r.columnTypeEnv r.columnTypeBase = true) :
    (classify envName baseName r).merge = "Different Length" := by
  simp [classify, hm, ht, pandas_ne, replace_label]

/-- A `both` row whose type columns compare unequal under pandas `!=`
(different values, or at least one side `NaN`) is labelled
`Different Type`. -/
theorem classify_both_type_ne {r : MergedRow} (envName baseName : String)
    (hm : r.merge = "both") (ht : pandas_eq r.columnTypeEnv r.columnTypeBase = false) :
    (classify envName baseName r).merge = "Different Type" := by
  simp [classify, hm, ht, pandas_ne, replace_label]

/-- A label of the form `Missing in {name}` is never the fallback label. -/
theorem missing_ne_fallback (s : String) : "Missing in " ++ s ≠ "Different Type\\Length" := by
  intro h
  have hd := congrArg String.data h
  rw [String.data_append] at hd
  simp only [show ("Missing in " : String).data
      = ['M', 'i', 's', 's', 'i', 'n', 'g', ' ', 'i', 'n', ' '] from rfl,
    show ("Different Type\\Length" : String).data
      = ['D', 'i', 'f', 'f', 'e', 'r', 'e', 'n', 't', ' ', 'T', 'y', 'p', 'e', '\\',
         'L', 'e', 'n', 'g', 't', 'h'] from rfl] at hd
  simp at hd

/-! ## Claims -/

/-- C1, counterexample to the claim as stated.  A `BOTH` row whose types
are equal under the absent==absent rule because *both types are absent*,
and whose lengths differ, is classified `Different Type`, not
`Different Length`: line 230 compares the type columns with pandas `!=`,
and `NaN != NaN` is true, so line 227's assignment fires.  The claimed
`LENGTH_MISMATCH` classification does not happen. -/
theorem c1_counterexample :
    (compare_environments "env" "base"
      [⟨"E", some "c", none, some 5⟩]
      [⟨"E", some "c", none, some 10⟩]).map (·.merge) = ["Different Type"]
    ∧ ("Different Type" : String) ≠ "Different Length" :=
  ⟨by decide, by decide⟩

/-- C1 (amended): a `BOTH` comparison row whose types are equal *and both
present* and whose lengths differ (under the absent==absent rule) is
classified `Different Length`, and its classified image is in the
Difference output.  (When both types are absent, the row is instead
classified `Different Type`, see the counterexample.) -/
theorem c1_length_mismatch (envName baseName : String) (env base : List FieldRecord)
    (r : MergedRow) (hmem : r ∈ sort_merged (outer_join env base))
    (hboth : r.merge = "both")
    (htype : ∃ t, r.columnTypeEnv = some t ∧ r.columnTypeBase = some t)
    (hlen : (pandas_eq r.columnLengthEnv r.columnLengthBase
             || both_na r.columnLengthEnv r.columnLengthBase) = false) :
    (classify envName baseName r).merge = "Different Length"
    ∧ classify envName baseName r ∈ compare_environments envName baseName env base := by
  obtain ⟨t, h1, h2⟩ := htype
  have hteq : pandas_eq r.columnTypeEnv r.columnTypeBase = true := by
    rw [h1, h2]; simp [pandas_eq]
  refine ⟨classify_both_type_eq envName baseName hboth hteq, ?_⟩
  refine List.mem_map_of_mem _ (List.mem_filter.mpr ⟨hmem, ?_⟩)
  simp [keep_row, hlen]

/-- C1 witness: a concrete `BOTH` row with equal present types and lengths
5 vs 10 is classified `Different Length` and appears in the output. -/
theorem c1_length_mismatch_witness :
    (classify "env" "base" ⟨"E", some "c", some "T", some 5, some "T", some 10, "both"⟩).merge
      = "Different Length"
    ∧ classify "env" "base" ⟨"E", some "c", some "T", some 5, some "T", some 10, "both"⟩
        ∈ compare_environments "env" "base"
            [⟨"E", some "c", some "T", some 5⟩] [⟨"E", some "c", some "T", some 10⟩] :=
  c1_length_mismatch "env" "base"
    [⟨"E", some "c", some "T", some 5⟩] [⟨"E", some "c", some "T", some 10⟩]
    ⟨"E", some "c", some "T", some 5, some "T", some 10, "both"⟩
    (by decide) rfl ⟨"T", rfl, rfl⟩ (by decide)

/-- C2: a `BOTH` comparison row whose types differ under the
absent==absent rule is classified `Different Type` — never
`Different Length`, even when the lengths differ too (the line 227
assignment runs before line 232 and takes priority) — and its classified
image is in the Difference output. -/
theorem c2_type_mismatch (envName baseName : String) (env base : List FieldRecord)
    (r : MergedRow) (hmem : r ∈ sort_merged (outer_join env base))
    (hboth : r.merge = "both")
    (htype : (pandas_eq r.columnTypeEnv r.columnTypeBase
              || both_na r.columnTypeEnv r.columnTypeBase) = false) :
    (classify envName baseName r).merge = "Different Type"
    ∧ (classify envName baseName r).merge ≠ "Different Length"
    ∧ classify envName baseName r ∈ compare_environments envName baseName env base := by
  have hte : pandas_eq r.columnTypeEnv r.columnTypeBase = false :=
    (Bool.or_eq_false_iff.mp htype).1
  have hlabel := classify_both_type_ne envName baseName hboth hte
  refine ⟨hlabel, by rw [hlabel]; decide, ?_⟩
  refine List.mem_map_of_mem _ (List.mem_filter.mpr ⟨hmem, ?_⟩)
  simp [keep_row, htype]

/-- C2 witness: a concrete `BOTH` row where both the types and the lengths
differ is classified `Different Type`, not `Different Length`. -/
theorem c2_type_mismatch_witness :
    (classify "env" "base" ⟨"E", some "c", some "T", some 5, some "U", some 10, "both"⟩).merge
      = "Different Type"
    ∧ (classify "env" "base" ⟨"E", some "c", some "T", some 5, some "U", some 10, "both"⟩).merge
      ≠ "Different Length"
    ∧ classify "env" "base" ⟨"E", some "c", some "T", some 5, some "U", some 10, "both"⟩
        ∈ compare_environments "env" "base"
            [⟨"E", some "c", some "T", some 5⟩] [⟨"E", some "c", some "U", some 10⟩] :=
  c2_type_mismatch "env" "base"
    [⟨"E", some "c", some "T", some 5⟩] [⟨"E", some "c", some "U", some 10⟩]
    ⟨"E", some "c", some "T", some 5, some "U", some 10, "both"⟩
    (by decide) rfl (by decide)

/-- C3: a comparison row whose types are equal and whose lengths are equal
(absent==absent counting as equal, as on lines 210-222) is dropped by the
equality filter and therefore never appears in the Difference output —
`compare_environments` is the image under `classify` of exactly the
filtered list. -/
theorem c3_equal_rows_dropped (env base : List FieldRecord)
    (r : MergedRow) (hmem : r ∈ sort_merged (outer_join env base))
    (hboth : r.merge = "both")
    (htype : (pandas_eq r.columnTypeEnv r.columnTypeBase
              || both_na r.columnTypeEnv r.columnTypeBase) = true)
    (hlen : (pandas_eq r.columnLengthEnv r.columnLengthBase
             || both_na r.columnLengthEnv r.columnLengthBase) = true) :
    keep_row r = false ∧ r ∉ (sort_merged (outer_join env base)).filter keep_row := by
  have hk : keep_row r = false := by simp [keep_row, htype, hlen]
  exact ⟨hk, fun hmem' => by simpa [hk] using (List.mem_filter.mp hmem').2⟩

/-- C3 witness: a concrete identical-on-both-sides row is dropped. -/
theorem c3_equal_rows_dropped_witness :
    keep_row ⟨"E", some "c", some "T", some 5, some "T", some 5, "both"⟩ = false
    ∧ (⟨"E", some "c", some "T", some 5, some "T", some 5, "both"⟩ : MergedRow)
        ∉ (sort_merged (outer_join
            [⟨"E", some "c", some "T", some 5⟩] [⟨"E", some "c", some "T", some 5⟩])).filter keep_row :=
  c3_equal_rows_dropped
    [⟨"E", some "c", some "T", some 5⟩] [⟨"E", some "c", some "T", some 5⟩]
    ⟨"E", some "c", some "T", some 5, some "T", some 5, "both"⟩
    (by decide) rfl (by decide) (by decide)

/-- C9: every row of the Difference output carries exactly one of the four
labels (`Missing in {baseline}`, `Missing in {environment}`,
`Different Type`, `Different Length`); the raw `'both'` indicator never
survives the two assignments of lines 227-236, so the fallback label
`Different Type\Length` of line 241 is never produced. -/
theorem c9_four_labels (envName baseName : String) (env base : List FieldRecord)
    (r : MergedRow) (hmem : r ∈ compare_environments envName baseName env base) :
    (r.merge = "Missing in " ++ baseName ∨ r.merge = "Missing in " ++ envName
     ∨ r.merge = "Different Type" ∨ r.merge = "Different Length")
    ∧ r.merge ≠ "Different Type\\Length" := by
  obtain ⟨r0, hr0, hcl⟩ := List.mem_map.mp hmem
  have hr0j : r0 ∈ outer_join env base :=
    (sort_merged_perm _).subset (List.mem_of_mem_filter hr0)
  rcases mem_outer_join_merge hr0j with hm | hm | hm
  · by_cases ht : pandas_eq r0.columnTypeEnv r0.columnTypeBase = true
    · have hl := classify_both_type_eq envName baseName hm ht
      rw [hcl] at hl
      exact ⟨Or.inr (Or.inr (Or.inr hl)), by rw [hl]; decide⟩
    · have hl := classify_both_type_ne envName baseName hm (Bool.eq_false_iff.mpr ht)
      rw [hcl] at hl
      exact ⟨Or.inr (Or.inr (Or.inl hl)), by rw [hl]; decide⟩
  · have hl := classify_left_only envName baseName hm
    rw [hcl] at hl
    exact ⟨Or.inl hl, by rw [hl]; exact missing_ne_fallback baseName⟩
  · have hl := classify_right_only envName baseName hm
    rw [hcl] at hl
    exact ⟨Or.inr (Or.inl hl), by rw [hl]; exact missing_ne_fallback envName⟩

/-- C9 witness: the single output row of a concrete run carries one of the
four labels and not the fallback. -/
theorem c9_four_labels_witness :
    ((⟨"E", some "c", some "T", some 5, some "T", some 10, "Different Length"⟩ : MergedRow).merge
        = "Missing in " ++ "base"
     ∨ (⟨"E", some "c", some "T", some 5, some "T", some 10, "Different Length"⟩
          : MergedRow).merge = "Missing in " ++ "env"
     ∨ (⟨"E", some "c", some "T", some 5, some "T", some 10, "Different Length"⟩
          : MergedRow).merge = "Different Type"
     ∨ (⟨"E", some "c", some "T", some 5, some "T", some 10, "Different Length"⟩
          : MergedRow).merge = "Different Length")
    ∧ (⟨"E", some "c", some "T", some 5, some "T", some 10, "Different Length"⟩
         : MergedRow).merge ≠ "Different Type\\Length" :=
  c9_four_labels "env" "base"
    [⟨"E", some "c", some "T", some 5⟩] [⟨"E", some "c", some "T", some 10⟩]
    ⟨"E", some "c", some "T", some 5, some "T", some 10, "Different Length"⟩ (by decide)

/-- C4, counterexample to the claim as stated.  The first environment's
payload fails normalization (entity without `LogicalName`); the second
environment's payload would normalize fine, yet it is not processed: the
loop of `get_metadata` has no `try/except` and the exception aborts it. -/
theorem c4_counterexample :
    get_metadata [("a", [⟨none, some []⟩]), ("b", [⟨some "E", some []⟩])]
      = ([], some "KeyError: LogicalName")
    ∧ (normalize_payload [(⟨some "E", some []⟩ : Entity)]).isOk = true :=
  ⟨rfl, rfl⟩

/-- C4 (amended): a normalization failure for one environment aborts the
`get_metadata` loop at that environment: the environments before the first
failing one are processed exactly as if they were alone, the error
propagates, and no later environment is processed. -/
theorem c4_abort_on_first_failure (pre rest : List (String × List Entity))
    (n : String) (p : List Entity) (msg : String)
    (hpre : ∀ x ∈ pre, (normalize_payload x.2).isOk = true)
    (hfail : normalize_payload p = .error msg) :
    get_metadata (pre ++ (n, p) :: rest) = ((get_metadata pre).1, some msg) := by
  induction pre with
  | nil => simp [get_metadata, hfail]
  | cons x t ih =>
    obtain ⟨m, q⟩ := x
    have hq := hpre (m, q) (List.mem_cons_self _ _)
    cases hnp : normalize_payload q with
    | error e => rw [hnp] at hq; simp [Except.isOk, Except.toBool] at hq
    | ok recs =>
      have ih' := ih (fun y hy => hpre y (List.mem_cons_of_mem _ hy))
      simp [get_metadata, hnp, ih']

/-- C4 witness: with a succeeding environment, then a failing one, then
another succeeding one, the output is that of the first environment alone
together with the error; the last environment is not processed. -/
theorem c4_abort_on_first_failure_witness :
    get_metadata ([("ok", [⟨some "E", some [[("LogicalName", JVal.str "f")]]⟩])]
        ++ ("bad", [⟨none, some []⟩]) :: [("later", [⟨some "F", some []⟩])])
      = ((get_metadata [("ok", [⟨some "E", some [[("LogicalName", JVal.str "f")]]⟩])]).1,
         some "KeyError: LogicalName") :=
  c4_abort_on_first_failure
    [("ok", [⟨some "E", some [[("LogicalName", JVal.str "f")]]⟩])]
    [("later", [⟨some "F", some []⟩])]
    "bad" [⟨none, some []⟩] "KeyError: LogicalName"
    (by intro x hx; rw [List.mem_singleton.mp hx]; rfl) rfl

/-- C8: for a structurally well-formed entity (logical name and attribute
list present), normalization succeeds — producing one record per
attribute — and an attribute whose `AttributeType` or `MaxLength` key is
not extractable gets `none` recorded in the corresponding field of its
record, never an error. -/
theorem c8_optional_fields_absent (ln : String) (attrs : List Attr) (e : Entity)
    (hl : e.logicalName = some ln) (ha : e.attributes = some attrs) :
    normalize_entity e = .ok (attrs.map (mk_record ln))
    ∧ ∀ a ∈ attrs,
        (dict_get "AttributeType" a = none → (mk_record ln a).columnType = none)
        ∧ (dict_get "MaxLength" a = none → (mk_record ln a).columnLength = none) := by
  refine ⟨by rw [normalize_entity, hl, ha], ?_⟩
  intro a _
  exact ⟨fun h => by simp [mk_record, h], fun h => by simp [mk_record, h]⟩

/-- C8 witness: a concrete entity with one attribute carrying only a
logical name normalizes without error, and the attribute's type and
length are recorded as absent. -/
theorem c8_optional_fields_absent_witness :
    normalize_entity ⟨some "E", some [[("LogicalName", JVal.str "f")]]⟩
      = .ok ([[("LogicalName", JVal.str "f")]].map (mk_record "E"))
    ∧ ∀ a ∈ [[("LogicalName", (JVal.str "f"))]],
        (dict_get "AttributeType" a = none → (mk_record "E" a).columnType = none)
        ∧ (dict_get "MaxLength" a = none → (mk_record "E" a).columnLength = none) :=
  c8_optional_fields_absent "E" [[("LogicalName", JVal.str "f")]]
    ⟨some "E", some [[("LogicalName", JVal.str "f")]]⟩ rfl rfl

/-- C10: on a payload that normalizes successfully, the normalizer emits
exactly one record per attribute, in payload order (entities in order,
attributes within each entity in order), and an attribute lacking a
`LogicalName` key still yields a record — with `columnName` absent —
rather than being skipped. -/
theorem c10_one_record_per_attribute (es : List Entity) (recs : List FieldRecordRaw)
    (h : normalize_payload es = .ok recs) :
    recs = es.flatMap (fun e => (e.attributes.getD []).map (mk_record (e.logicalName.getD "")))
    ∧ recs.length = (es.map (fun e => (e.attributes.getD []).length)).sum
    ∧ ∀ (ln : String) (a : Attr), dict_get "LogicalName" a = none →
        (mk_record ln a).columnName = none := by
  have hflat : recs
      = es.flatMap (fun e => (e.attributes.getD []).map (mk_record (e.logicalName.getD ""))) := by
    induction es generalizing recs with
    | nil =>
      rw [normalize_payload] at h
      cases h; rfl
    | cons e t ih =>
      rw [normalize_payload] at h
      cases hne : normalize_entity e with
      | error m => rw [hne] at h; cases h
      | ok rs =>
        rw [hne] at h
        cases hnt : normalize_payload t with
        | error m => rw [hnt] at h; cases h
        | ok rest2 =>
          rw [hnt] at h
          cases h
          rw [normalize_entity] at hne
          cases hl : e.logicalName with
          | none => rw [hl] at hne; cases hne
          | some ln =>
            rw [hl] at hne
            cases ha : e.attributes with
            | none => rw [ha] at hne; cases hne
            | some attrs =>
              rw [ha] at hne
              cases hne
              simp [List.flatMap_cons, hl, ha, ih rest2 hnt]
  refine ⟨hflat, ?_, fun ln a h' => by simp [mk_record, h']⟩
  rw [hflat]
  simp [List.flatMap_def, List.length_flatten, List.map_map, Function.comp_def]

/-- Sums of pointwise sums split. -/
theorem sum_map_add_split {α : Type} (l : List α) (f g : α → Nat) :
    (l.map (fun x => f x + g x)).sum = (l.map f).sum + (l.map g).sum := by
  induction l with
  | nil => rfl
  | cons a t ih => simp only [List.map_cons, List.sum_cons, ih]; omega

/-- On a duplicate-free list containing `a`, the indicator of `a` sums
to one. -/
theorem sum_indicator_one {ks : List String} {a : String} (hnd : ks.Nodup) (ha : a ∈ ks) :
    (ks.map (fun k => if a = k then 1 else 0)).sum = 1 := by
  induction ks with
  | nil => cases ha
  | cons k t ih =>
    rcases List.mem_cons.mp ha with rfl | ha'
    · have hk : a ∉ t := (List.nodup_cons.mp hnd).1
      have hz : (t.map (fun k => if a = k then 1 else 0)).sum = 0 := by
        apply List.sum_eq_zero
        intro x hx
        obtain ⟨y, hy, hxy⟩ := List.mem_map.mp hx
        have hay : ¬ a = y := fun h => hk (by rw [h]; exact hy)
        rw [← hxy, if_neg hay]
      rw [List.map_cons, List.sum_cons, if_pos rfl, hz]
    · have hk : ¬(a = k) := fun h => (List.nodup_cons.mp hnd).1 (h ▸ ha')
      simp only [List.map_cons, List.sum_cons, if_neg hk]
      rw [ih (List.nodup_cons.mp hnd).2 ha']

/-- Partitioning a count over a duplicate-free list of kinds covering all
counted rows: summing the per-kind counts recovers the total count. -/
theorem countP_partition_by_kind (l : List MergedRow) (p : MergedRow → Bool)
    (ks : List String) (hnd : ks.Nodup)
    (hcov : ∀ r ∈ l, p r = true → r.merge ∈ ks) :
    (ks.map (fun k => l.countP (fun r => p r && decide (r.merge = k)))).sum = l.countP p := by
  induction l with
  | nil => simp
  | cons a t ih =>
    have hcov' : ∀ r ∈ t, p r = true → r.merge ∈ ks :=
      fun r hr => hcov r (List.mem_cons_of_mem _ hr)
    simp only [List.countP_cons]
    rw [sum_map_add_split ks (fun k => t.countP (fun r => p r && decide (r.merge = k)))
      (fun k => if (p a && decide (a.merge = k)) = true then 1 else 0)]
    rw [ih hcov']
    congr 1
    by_cases hp : p a = true
    · have hmem : a.merge ∈ ks := hcov a (List.mem_cons_self a t) hp
      simp only [hp, Bool.true_and, decide_eq_true_eq, if_true]
      simpa using sum_indicator_one hnd hmem
    · have hp' : p a = false := Bool.eq_false_iff.mpr hp
      simp [hp']

/-- The summary row of any entity sums to the number of difference rows of
that entity *that have a non-null `ColumnName`*: `groupby(...).count()`
counts non-NA values of the counted column. -/
theorem summary_row_sum_eq (rows : List MergedRow) (ent : String) :
    summary_row_sum rows ent
      = rows.countP (fun r => decide (r.entityName = ent) && r.columnName.isSome) :=
  countP_partition_by_kind rows _ (diff_kinds rows) (List.nodup_dedup _)
    (fun r hr _ => List.mem_dedup.mpr (List.mem_map_of_mem _ hr))

/-- C5, counterexample to the claim as stated.  A Difference row whose
`ColumnName` is absent (the attribute had no `LogicalName`) is counted by
nothing in the summary — `groupby(['EntityName', 'Difference'])
["ColumnName"].count()` counts only non-NA `ColumnName` cells — so the
summary cells of entity `E` sum to 0 although `E` carries one
Difference. -/
theorem c5_counterexample :
    summary_row_sum (compare_environments "env" "base" [⟨"E", none, some "T", none⟩] []) "E" = 0
    ∧ (compare_environments "env" "base" [⟨"E", none, some "T", none⟩] []).countP
        (fun r => decide (r.entityName = "E")) = 1 :=
  ⟨by decide, by decide⟩

/-- C5 (amended): for every entity, the sum of all its summary cells
equals the number of Differences carrying that `entity_name` *and a
present `column_name`* — rows with an absent `ColumnName` are not counted
by the group-by. -/
theorem c5_summary_conservation (envName baseName : String) (env base : List FieldRecord)
    (ent : String) :
    summary_row_sum (compare_environments envName baseName env base) ent
      = (compare_environments envName baseName env base).countP
          (fun r => decide (r.entityName = ent) && r.columnName.isSome) :=
  summary_row_sum_eq (compare_environments envName baseName env base) ent

/-- C6, counterexample to the claim as stated.  `replace` (lines 238-242)
rewrites sentinel values in *every* string column, `EntityName` included:
an entity legitimately named `both` is renamed `Different Type\Length`
after the sort, and the output key sequence is no longer ascending
(`"a" > "Different Type\Length"` because lowercase letters sort after
uppercase). -/
theorem c6_counterexample :
    (compare_environments "env" "base"
      [⟨"a", some "c", some "T", none⟩, ⟨"both", some "c", some "T", none⟩] []).map rowKey
      = [("a", some "c"), ("Different Type\\Length", some "c")]
    ∧ ¬ List.Sorted rowLe (compare_environments "env" "base"
      [⟨"a", some "c", some "T", none⟩, ⟨"both", some "c", some "T", none⟩] []) :=
  ⟨by decide, by decide⟩

/-- C6 (amended): provided no `EntityName` or `ColumnName` cell of either
snapshot equals one of the three merge-indicator sentinels (`left_only`,
`right_only`, `both`) — so that the whole-frame `replace` leaves the keys
alone — the Difference output is sorted ascending by
`(entity_name, column_name)`; and `reconcile` is a pure function, so two
invocations on identical snapshots yield the identical ordered output. -/
theorem c6_sorted_deterministic (envName baseName : String) (env base : List FieldRecord)
    (hclean : ∀ rec ∈ env ++ base, clean_record rec = true) :
    List.Sorted rowLe (compare_environments envName baseName env base)
    ∧ compare_environments envName baseName env base
      = compare_environments envName baseName env base := by
  refine ⟨?_, rfl⟩
  have hs : List.Sorted rowLe ((sort_merged (outer_join env base)).filter keep_row) :=
    List.Pairwise.filter keep_row (sort_merged_sorted (outer_join env base))
  show List.Pairwise rowLe
    (((sort_merged (outer_join env base)).filter keep_row).map (classify envName baseName))
  rw [List.pairwise_map]
  refine hs.imp_of_mem ?_
  intro a b ha hb hab
  have hca : clean_row_key a = true := outer_join_clean hclean a
    ((sort_merged_perm _).subset (List.mem_of_mem_filter ha))
  have hcb : clean_row_key b = true := outer_join_clean hclean b
    ((sort_merged_perm _).subset (List.mem_of_mem_filter hb))
  show keyLe (rowKey (classify envName baseName a)) (rowKey (classify envName baseName b))
  rw [rowKey_classify envName baseName hca, rowKey_classify envName baseName hcb]
  exact hab

/-- C6 witness: a concrete three-row comparison with clean names produces
a sorted output. -/
theorem c6_sorted_deterministic_witness :
    List.Sorted rowLe (compare_environments "env" "base"
      [⟨"B", some "x", some "T", none⟩, ⟨"A", some "y", some "T", none⟩,
       ⟨"A", some "x", some "T", none⟩] [⟨"A", some "x", some "U", none⟩])
    ∧ compare_environments "env" "base"
        [⟨"B", some "x", some "T", none⟩, ⟨"A", some "y", some "T", none⟩,
         ⟨"A", some "x", some "T", none⟩] [⟨"A", some "x", some "U", none⟩]
      = compare_environments "env" "base"
          [⟨"B", some "x", some "T", none⟩, ⟨"A", some "y", some "T", none⟩,
           ⟨"A", some "x", some "T", none⟩] [⟨"A", some "x", some "U", none⟩] :=
  c6_sorted_deterministic "env" "base"
    [⟨"B", some "x", some "T", none⟩, ⟨"A", some "y", some "T", none⟩,
     ⟨"A", some "x", some "T", none⟩] [⟨"A", some "x", some "U", none⟩]
    (by decide)

/-! ## Outer-join rows of a given key -/

theorem rowKey_mkLeft (e : FieldRecord) : rowKey (mkLeft e) = recKey e := rfl

theorem rowKey_mkRight (b : FieldRecord) : rowKey (mkRight b) = recKey b := rfl

theorem rowKey_mkBoth (e b : FieldRecord) : rowKey (mkBoth e b) = recKey e := rfl

/-- Every row contributed by the environment row `e` carries `e`'s key. -/
theorem mem_join_left_rows_key {base : List FieldRecord} {e : FieldRecord} {r : MergedRow}
    (h : r ∈ join_left_rows base e) : rowKey r = recKey e := by
  simp only [join_left_rows] at h
  by_cases hm : (base.filter (fun b => decide (recKey b = recKey e))).isEmpty = true
  · rw [if_pos hm] at h
    rw [List.mem_singleton.mp h]
    rfl
  · rw [if_neg hm] at h
    obtain ⟨b, _, hb⟩ := List.mem_map.mp h
    rw [← hb]
    rfl

/-- When the baseline has no row of key `k`, the environment side of the
join restricted to key `k` is exactly the `left_only` image of the
environment rows of key `k`. -/
theorem left_part_filter (env base : List FieldRecord) (k : String × Option String)
    (hbase : base.filter (fun b => decide (recKey b = k)) = []) :
    (env.flatMap (join_left_rows base)).filter (fun r => decide (rowKey r = k))
      = (env.filter (fun e => decide (recKey e = k))).map mkLeft := by
  induction env with
  | nil => rfl
  | cons e t ih =>
    rw [List.flatMap_cons, List.filter_append, ih, List.filter_cons]
    by_cases hk : recKey e = k
    · have hj : join_left_rows base e = [mkLeft e] := by
        simp only [join_left_rows, hk, hbase, List.isEmpty_nil, if_true]
      rw [hj]
      simp [List.filter_cons, rowKey_mkLeft, hk]
    · have hnil : (join_left_rows base e).filter (fun r => decide (rowKey r = k)) = [] := by
        rw [List.filter_eq_nil_iff]
        intro r hr
        rw [mem_join_left_rows_key hr]
        simpa using hk
      rw [hnil]
      simp [hk]

/-- When the environment has no row of key `k`, the environment side of the
join has no row of key `k` either. -/
theorem left_part_filter_nil (env base : List FieldRecord) (k : String × Option String)
    (henv : env.filter (fun e => decide (recKey e = k)) = []) :
    (env.flatMap (join_left_rows base)).filter (fun r => decide (rowKey r = k)) = [] := by
  rw [List.filter_eq_nil_iff]
  intro r hr
  obtain ⟨e, he, hre⟩ := List.mem_flatMap.mp hr
  have hek : ¬(recKey e = k) := by
    have := List.filter_eq_nil_iff.mp henv e he
    simpa using this
  rw [mem_join_left_rows_key hre]
  simpa using hek

/-- When the baseline has no row of key `k`, the baseline side of the join
has no row of key `k`. -/
theorem right_part_filter_nil (env base : List FieldRecord) (k : String × Option String)
    (hbase : base.filter (fun b => decide (recKey b = k)) = []) :
    ((base.filter (fun b => !(env.any (fun e => decide (recKey e = recKey b))))).map mkRight).filter
      (fun r => decide (rowKey r = k)) = [] := by
  rw [List.filter_eq_nil_iff]
  intro r hr
  obtain ⟨b, hb, hrb⟩ := List.mem_map.mp hr
  have hbk : ¬(recKey b = k) := by
    have := List.filter_eq_nil_iff.mp hbase b (List.mem_of_mem_filter hb)
    simpa using this
  rw [← hrb, rowKey_mkRight]
  simpa using hbk

/-- When the environment has no row of key `k` and the baseline has exactly
one, the baseline side of the join restricted to key `k` is that one row,
as `right_only`. -/
theorem right_part_filter_singleton (env base : List FieldRecord) (k : String × Option String)
    (b : FieldRecord)
    (henv : env.filter (fun e => decide (recKey e = k)) = [])
    (hbase : base.filter (fun b' => decide (recKey b' = k)) = [b]) :
    ((base.filter (fun b' => !(env.any (fun e => decide (recKey e = recKey b'))))).map
        mkRight).filter (fun r => decide (rowKey r = k)) = [mkRight b] := by
  rw [List.filter_map]
  have hcomp : ((fun r => decide (rowKey r = k)) ∘ mkRight)
      = (fun b' : FieldRecord => decide (recKey b' = k)) := rfl
  rw [hcomp, List.filter_filter]
  have hswap : base.filter
        (fun b' => decide (recKey b' = k) && !(env.any (fun e => decide (recKey e = recKey b'))))
      = (base.filter (fun b' => decide (recKey b' = k))).filter
          (fun b' => !(env.any (fun e => decide (recKey e = recKey b')))) := by
    rw [List.filter_filter]
    exact List.filter_congr (fun x _ => Bool.and_comm _ _)
  rw [hswap, hbase]
  have hbk : recKey b = k := by
    have hmem : b ∈ base.filter (fun b' => decide (recKey b' = k)) := by
      rw [hbase]; exact List.mem_singleton_self b
    simpa using (List.mem_filter.mp hmem).2
  have hun : env.any (fun e => decide (recKey e = recKey b)) = false := by
    rw [List.any_eq_false]
    intro e he
    have := List.filter_eq_nil_iff.mp henv e he
    simp only [decide_eq_true_eq] at this ⊢
    rw [hbk]; exact this
  simp [List.filter_cons, hun]

/-- A `left_only` row of a record with a present type or length survives
the equality filter. -/
theorem keep_mkLeft (e : FieldRecord)
    (h : e.columnType.isSome = true ∨ e.columnLength.isSome = true) :
    keep_row (mkLeft e) = true := by
  rcases h with h | h
  · obtain ⟨t, ht⟩ := Option.isSome_iff_exists.mp h
    simp [keep_row, mkLeft, ht, pandas_eq, both_na]
  · obtain ⟨n, hn⟩ := Option.isSome_iff_exists.mp h
    simp [keep_row, mkLeft, hn, pandas_eq, both_na]

/-- A `right_only` row of a record with a present type or length survives
the equality filter. -/
theorem keep_mkRight (b : FieldRecord)
    (h : b.columnType.isSome = true ∨ b.columnLength.isSome = true) :
    keep_row (mkRight b) = true := by
  rcases h with h | h
  · obtain ⟨t, ht⟩ := Option.isSome_iff_exists.mp h
    simp [keep_row, mkRight, ht, pandas_eq, both_na]
  · obtain ⟨n, hn⟩ := Option.isSome_iff_exists.mp h
    simp [keep_row, mkRight, hn, pandas_eq, both_na]

/-- Restricting the Difference output to a key commutes with the pipeline:
it is the classify-image of the key-restricted filtered sorted join,
provided all key cells are clean (so `replace` does not move rows across
keys). -/
theorem compare_filter_key (envName baseName : String) (env base : List FieldRecord)
    (k : String × Option String)
    (hclean : ∀ rec ∈ env ++ base, clean_record rec = true) :
    (compare_environments envName baseName env base).filter (fun r => decide (rowKey r = k))
    = (((sort_merged (outer_join env base)).filter keep_row).filter
        (fun r => decide (rowKey r = k))).map (classify envName baseName) := by
  rw [compare_environments, List.filter_map]
  congr 1
  apply List.filter_congr
  intro r hr
  have hc : clean_row_key r = true := outer_join_clean hclean r
    ((sort_merged_perm _).subset (List.mem_of_mem_filter hr))
  show decide (rowKey (classify envName baseName r) = k) = decide (rowKey r = k)
  rw [rowKey_classify envName baseName hc]

/-- The equality filter and a key restriction commute. -/
theorem filter_keep_filter_key (S : List MergedRow) (k : String × Option String) :
    (S.filter keep_row).filter (fun r => decide (rowKey r = k))
      = (S.filter (fun r => decide (rowKey r = k))).filter keep_row := by
  rw [List.filter_filter, List.filter_filter]
  exact List.filter_congr (fun r _ => Bool.and_comm _ _)

/-- Sorting preserves a singleton key restriction. -/
theorem sort_filter_singleton (J : List MergedRow) (k : String × Option String) (x : MergedRow)
    (h : J.filter (fun r => decide (rowKey r = k)) = [x]) :
    (sort_merged J).filter (fun r => decide (rowKey r = k)) = [x] := by
  have hp := (sort_merged_perm J).filter (fun r => decide (rowKey r = k))
  rw [h] at hp
  exact List.perm_singleton.mp hp

/-- C7, counterexample to the claim as stated.  A key present only in the
environment snapshot, whose record has *both* type and length absent,
produces no Difference at all: its `left_only` merged row has `NaN` in all
four attribute columns, so the equality filter of lines 210-222 (both
types `NaN`, both lengths `NaN`) drops it. -/
theorem c7_counterexample :
    compare_environments "env" "base" [⟨"E", some "c", none, none⟩] [] = [] := by decide

/-- C7 (amended): provided no `EntityName`/`ColumnName` cell is a merge
sentinel and the one-sided record has a present type or a present length,
a key present in exactly one snapshot yields exactly one Difference,
labelled `Missing in {baseline}` when environment-only and
`Missing in {environment}` when baseline-only.  (A one-sided record with
both type and length absent yields no Difference, see the
counterexample.) -/
theorem c7_one_sided_keys (envName baseName : String) (env base : List FieldRecord)
    (k : String × Option String) (e : FieldRecord)
    (hclean : ∀ rec ∈ env ++ base, clean_record rec = true) :
    ((env.filter (fun r => decide (recKey r = k)) = [e]
      → base.filter (fun r => decide (recKey r = k)) = []
      → e.columnType.isSome = true ∨ e.columnLength.isSome = true
      → (compare_environments envName baseName env base).filter (fun r => decide (rowKey r = k))
          = [classify envName baseName (mkLeft e)]
        ∧ (classify envName baseName (mkLeft e)).merge = "Missing in " ++ baseName)
    ∧ (base.filter (fun r => decide (recKey r = k)) = [e]
      → env.filter (fun r => decide (recKey r = k)) = []
      → e.columnType.isSome = true ∨ e.columnLength.isSome = true
      → (compare_environments envName baseName env base).filter (fun r => decide (rowKey r = k))
          = [classify envName baseName (mkRight e)]
        ∧ (classify envName baseName (mkRight e)).merge = "Missing in " ++ envName)) := by
  constructor
  · intro henv hbase hfield
    have hJ : (outer_join env base).filter (fun r => decide (rowKey r = k)) = [mkLeft e] := by
      rw [outer_join, List.filter_append, left_part_filter env base k hbase,
        right_part_filter_nil env base k hbase, henv]
      rfl
    have hS := sort_filter_singleton (outer_join env base) k (mkLeft e) hJ
    refine ⟨?_, classify_left_only envName baseName rfl⟩
    rw [compare_filter_key envName baseName env base k hclean,
      filter_keep_filter_key, hS]
    simp [List.filter_cons, keep_mkLeft e hfield]
  · intro hbase henv hfield
    have hJ : (outer_join env base).filter (fun r => decide (rowKey r = k)) = [mkRight e] := by
      rw [outer_join, List.filter_append, left_part_filter_nil env base k henv,
        right_part_filter_singleton env base k e henv hbase]
      rfl
    have hS := sort_filter_singleton (outer_join env base) k (mkRight e) hJ
    refine ⟨?_, classify_right_only envName baseName rfl⟩
    rw [compare_filter_key envName baseName env base k hclean,
      filter_keep_filter_key, hS]
    simp [List.filter_cons, keep_mkRight e hfield]

/-- C7 witness: a concrete environment-only key yields exactly one
`Missing in base` Difference. -/
theorem c7_one_sided_keys_witness :
    (compare_environments "env" "base" [⟨"E", some "c", some "T", none⟩] []).filter
        (fun r => decide (rowKey r = ("E", some "c")))
      = [classify "env" "base" (mkLeft ⟨"E", some "c", some "T", none⟩)]
    ∧ (classify "env" "base" (mkLeft ⟨"E", some "c", some "T", none⟩)).merge
      = "Missing in " ++ "base" :=
  (c7_one_sided_keys "env" "base" [⟨"E", some "c", some "T", none⟩] []
    ("E", some "c") ⟨"E", some "c", some "T", none⟩ (by decide)).1
    rfl rfl (Or.inl rfl)

/-- C10 witness: a concrete two-entity payload — whose second entity has
one attribute with a logical name and one without — yields exactly one
record per attribute, in order, with `columnName` absent for the nameless
attribute. -/
theorem c10_one_record_per_attribute_witness :
    ([⟨"E", some (JVal.str "f"), none, none⟩, ⟨"F", none, some (JVal.str "Int"), none⟩]
        : List FieldRecordRaw)
      = ([⟨some "E", some [[("LogicalName", JVal.str "f")]]⟩,
          ⟨some "F", some [[("AttributeType", JVal.str "Int")]]⟩] : List Entity).flatMap
          (fun e => (e.attributes.getD []).map (mk_record (e.logicalName.getD "")))
    ∧ ([⟨"E", some (JVal.str "f"), none, none⟩, ⟨"F", none, some (JVal.str "Int"), none⟩]
        : List FieldRecordRaw).length
      = (([⟨some "E", some [[("LogicalName", JVal.str "f")]]⟩,
           ⟨some "F", some [[("AttributeType", JVal.str "Int")]]⟩] : List Entity).map
          (fun e => (e.attributes.getD []).length)).sum
    ∧ ∀ (ln : String) (a : Attr), dict_get "LogicalName" a = none →
        (mk_record ln a).columnName = none :=
  c10_one_record_per_attribute
    [⟨some "E", some [[("LogicalName", JVal.str "f")]]⟩,
     ⟨some "F", some [[("AttributeType", JVal.str "Int")]]⟩]
    [⟨"E", some (JVal.str "f"), none, none⟩, ⟨"F", none, some (JVal.str "Int"), none⟩]
    rfl

end SchemaCompare
